import Mathlib

/-
  Verification of the finance-control frontend (React/TypeScript SPA).

  Shallow embedding conventions:
  * TypeScript strings are Lean `String` (or `List Char` where the code walks
    characters, e.g. the base64 credential pipeline).
  * JS numbers are modelled by `JsNum`: either a rational value or NaN.
  * `sessionStorage` is modelled by the single entry it holds in this app,
    the value under the key "fc_credentials", as an `Option (List Char)`.
  * Asynchronous fetch calls are modelled by passing the server's `Response`
    (or the already-processed `Except` outcome) as an argument to the event
    handler being embedded; the handler is then a pure function from the
    pre-state to the post-state plus its observable effects (toast shown,
    whether a request was issued).
  * Browser primitives used by the code (`JSON.parse`, `parseFloat`) are
    parameters of the embedding; `btoa`/`atob` are modelled concretely as
    base64 over latin-1 character lists.
-/

namespace FinanceControl

/-! ## JSON values (model of the data handled by JSON.parse / response.json) -/

/-- A JSON value. Numbers are modelled as rationals. -/
inductive Json where
  | null
  | bool (b : Bool)
  | num (q : ℚ)
  | str (s : String)
  | arr (elems : List Json)
  | obj (fields : List (String × Json))

/-- JS truthiness of a JSON value: null, false, 0 and the empty string are
falsy; arrays and objects are always truthy. -/
def Json.truthy : Json → Bool
  | .null => false
  | .bool b => b
  | .num q => q != 0
  | .str s => s != ""
  | .arr _ => true
  | .obj _ => true

/-- Property access `j.k` on a parsed JSON value: the first binding of the
key in an object, `undefined` (none) otherwise. -/
def Json.getField : Json → String → Option Json
  | .obj fields, k => (fields.find? (fun p => p.1 = k)).map (fun p => p.2)
  | _, _ => none

/-- JS string coercion, as applied when a non-string JSON field ends up as an
error message. Only the `str` case is relied on by any theorem below. -/
def Json.jsToString : Json → String
  | .str s => s
  | .num q => toString q
  | .bool b => if b then "true" else "false"
  | .null => "null"
  | .arr _ => ""
  | .obj _ => "object"

/-! ## API client (src/lib/api.ts) -/

/-- An HTTP response as seen by the client: status code and raw body text.
Headers are not inspected by the code under verification. -/
structure Response where
  status : Nat
  bodyText : String

/-- The fetch API's `response.ok`: status in the range 200-299. -/
def Response.isOk (r : Response) : Bool := 200 ≤ r.status && r.status ≤ 299

/-- Class `ApiError` from src/lib/api.ts: an HTTP status plus a message. -/
structure ApiError where
  status : Nat
  message : String
deriving DecidableEq

/-- The errors a wrapper call can surface: a thrown `ApiError`, a JSON parse
failure on a success body, or the exception `btoa` raises on a non-latin1
string. -/
inductive JsError where
  | api (e : ApiError)
  | parseFailure
  | invalidChar
deriving DecidableEq

/-- Default message for a non-OK response, from `handleResponse`. -/
def defaultHttpMessage (status : Nat) : String :=
  "HTTP Error: " ++ toString status

/-- The field named `k` of `j` when it is truthy, mirroring how
`errorData.message || errorData.error || message` short-circuits. -/
def truthyField (j : Json) (k : String) : Option Json :=
  match j.getField k with
  | some v => if v.truthy then some v else none
  | none => none

/-- The error message chosen by `handleResponse` for a non-OK response:
`errorData.message || errorData.error || "HTTP Error: <status>"`, where a
body that fails to parse keeps the default. -/
def pickErrMsg (parsed : Option Json) (status : Nat) : String :=
  match parsed with
  | none => defaultHttpMessage status
  | some j =>
    match truthyField j "message" with
    | some v => v.jsToString
    | none =>
      match truthyField j "error" with
      | some v => v.jsToString
      | none => defaultHttpMessage status

/-- Function `handleResponse` from src/lib/api.ts. `parse` models `JSON.parse` /
`response.json()` (none = throws). Non-OK responses throw an `ApiError`;
an empty success body yields the empty object; otherwise the body is parsed. -/
def handleResponse (parse : String → Option Json) (response : Response) :
    Except JsError Json :=
  if response.isOk then
    if response.bodyText = "" then .ok (Json.obj [])
    else
      match parse response.bodyText with
      | some j => .ok j
      | none => .error .parseFailure
  else
    .error (.api ⟨response.status, pickErrMsg (parse response.bodyText) response.status⟩)

/-- Wrapper `getJson`: performs a GET fetch and hands the response to
`handleResponse`. URL and header construction are not observable in the
response handling and are not modelled. -/
def getJson (parse : String → Option Json) (response : Response) : Except JsError Json :=
  handleResponse parse response

/-- Wrapper `postJson`: performs a POST fetch and hands the response to
`handleResponse`. -/
def postJson (parse : String → Option Json) (response : Response) : Except JsError Json :=
  handleResponse parse response

/-- Wrapper `deleteJson`: performs a DELETE fetch and hands the response to
`handleResponse`. -/
def deleteJson (parse : String → Option Json) (response : Response) : Except JsError Json :=
  handleResponse parse response

/-- Wrapper `postFormData`: performs a multipart POST and hands the response to
`handleResponse`. -/
def postFormData (parse : String → Option Json) (response : Response) : Except JsError Json :=
  handleResponse parse response

/-- The field named `k` of `j` when it is a string, as the spec reads:
"the response body's message field". -/
def strField (j : Json) (k : String) : Option String :=
  match j.getField k with
  | some (.str s) => some s
  | _ => none

/-- The error message as the specification words it: the body's `message`
field, else its `error` field, else the default `HTTP Error: <status>`. -/
def specErrorMessage (parsed : Option Json) (status : Nat) : String :=
  match parsed with
  | none => defaultHttpMessage status
  | some j => ((strField j "message").orElse (fun _ => strField j "error")).getD (defaultHttpMessage status)

/-- A JSON field that is either absent or a non-empty string; the shape the
backend's error bodies take, under which code and spec wording agree. -/
def goodStringField (j : Json) (k : String) : Prop :=
  match j.getField k with
  | none => True
  | some (.str s) => s ≠ ""
  | some _ => False

/-! ## Data model (src/types/dtos.ts) -/

/-- A JS number: a rational value or NaN. Arithmetic on NaN propagates NaN;
comparisons against NaN are false. -/
inductive JsNum where
  | nan
  | val (q : ℚ)
deriving DecidableEq

/-- JS addition on numbers. -/
def JsNum.add : JsNum → JsNum → JsNum
  | .val a, .val b => .val (a + b)
  | _, _ => .nan

/-- JS unary minus on numbers. -/
def JsNum.neg : JsNum → JsNum
  | .val a => .val (-a)
  | .nan => .nan

/-- The test `x <= 0` on a JS number; false for NaN. -/
def JsNum.leZero : JsNum → Bool
  | .val a => a ≤ 0
  | .nan => false

/-- Transaction type: 'DEBIT' or 'CREDIT'. -/
inductive TransactionType where
  | debit
  | credit
deriving DecidableEq

/-- Structure `WalletDto`: id, name, balance, currency, owning user. The optional
`createdAt` is never read by the code under verification and is omitted. -/
structure WalletDto where
  id : Int
  name : String
  balance : JsNum
  currency : String
  userId : Int
deriving DecidableEq

/-- Structure `TransactionDto`. -/
structure TransactionDto where
  id : Int
  type : TransactionType
  category : String
  subcategory : Option String
  amount : JsNum
  description : Option String
  date : String
  walletId : Int
deriving DecidableEq

/-- Structure `SubcategoryDto`. -/
structure SubcategoryDto where
  id : Int
  name : String
  categoryId : Int
deriving DecidableEq

/-- Structure `CategoryDto`; `userId` and `subcategories` are optional fields. -/
structure CategoryDto where
  id : Int
  name : String
  type : TransactionType
  isDefault : Bool
  userId : Option Int
  subcategories : Option (List SubcategoryDto)
deriving DecidableEq

/-! ## Toast notifications (src/components/Toast.tsx, useToast) -/

/-- The toast kind passed to `showToast`. -/
inductive ToastType where
  | success
  | error
  | info
deriving DecidableEq

/-- A toast notification: message and kind. -/
structure ToastMsg where
  message : String
  type : ToastType
deriving DecidableEq

/-! ## Wallet detail page (src/src/pages/WalletDetailPage.tsx) -/

/-- The page state read and written by the transaction handlers: the wallet,
the displayed transaction list, the loaded categories, and the new-transaction
form fields. `none` for an id field models the empty-string sentinel of the
`number | ''` union. -/
structure WalletDetailState where
  wallet : Option WalletDto
  transactions : List TransactionDto
  categories : List CategoryDto
  newType : TransactionType
  newCategoryId : Option Int
  newSubcategoryId : Option Int
  newAmount : String
  newDescription : String
  newDate : String
deriving DecidableEq

/-- JS truthiness of a `number | ''` value: the empty string and 0 are falsy. -/
def idTruthy : Option Int → Bool
  | none => false
  | some n => n != 0

/-- Outcome of `handleCreateTransaction`: the post-state, the toast shown,
and whether a POST request was issued. -/
structure CreateTransactionResult where
  state : WalletDetailState
  toast : Option ToastMsg
  requestSent : Bool
deriving DecidableEq

/-- Handler `handleCreateTransaction` from WalletDetailPage.tsx. `parseFloat` models
the JS primitive (NaN for non-numeric input); `today` models the string
`new Date().toISOString().split('T')[0]` used to reset the date field;
`server` is the outcome of the POST when one is issued. -/
def handleCreateTransaction (parseFloat : String → JsNum) (today : String)
    (server : Except JsError TransactionDto) (st : WalletDetailState) :
    CreateTransactionResult :=
  if !idTruthy st.newCategoryId then
    ⟨st, some ⟨"Category is required", .error⟩, false⟩
  else if st.newAmount = "" || (parseFloat st.newAmount).leZero then
    ⟨st, some ⟨"Please enter a valid amount", .error⟩, false⟩
  else if st.newDate = "" then
    ⟨st, some ⟨"Date is required", .error⟩, false⟩
  else
    let category : Option CategoryDto :=
      match st.newCategoryId with
      | some cid => st.categories.find? (fun c => c.id = cid)
      | none => none
    match category with
    | none => ⟨st, some ⟨"Invalid category selected", .error⟩, false⟩
    | some _ =>
      match server with
      | .ok newTransaction =>
        let amt := parseFloat st.newAmount
        let balanceChange := if st.newType = .credit then amt else amt.neg
        ⟨{ st with
            transactions := newTransaction :: st.transactions,
            wallet := st.wallet.map (fun w => { w with balance := w.balance.add balanceChange }),
            newType := .debit,
            newCategoryId := none,
            newSubcategoryId := none,
            newAmount := "",
            newDescription := "",
            newDate := today },
          some ⟨"Transaction created successfully!", .success⟩, true⟩
      | .error e =>
        ⟨st,
          some (match e with
            | .api a => ⟨a.message, .error⟩
            | _ => ⟨"Failed to create transaction", .error⟩), true⟩

/-- Outcome of `handleDeleteTransaction`: updated wallet and transaction
list, toast, and whether the DELETE was issued. -/
structure DeleteTransactionResult where
  wallet : Option WalletDto
  transactions : List TransactionDto
  toast : Option ToastMsg
  requestSent : Bool
deriving DecidableEq

/-- Handler `handleDeleteTransaction` from WalletDetailPage.tsx. `confirmed` is the
answer to the `confirm(...)` dialog; `server` the outcome of the DELETE. -/
def handleDeleteTransaction (confirmed : Bool) (server : Except JsError Unit)
    (st : WalletDetailState) (transactionId : Int) : DeleteTransactionResult :=
  if !confirmed then
    ⟨st.wallet, st.transactions, none, false⟩
  else
    match server with
    | .ok _ =>
      let deletedTransaction := st.transactions.find? (fun t => t.id = transactionId)
      let wallet' :=
        match deletedTransaction, st.wallet with
        | some dt, some w =>
          let balanceChange := if dt.type = .credit then dt.amount.neg else dt.amount
          some { w with balance := w.balance.add balanceChange }
        | _, _ => st.wallet
      ⟨wallet', st.transactions.filter (fun t => !(t.id = transactionId)),
        some ⟨"Transaction deleted successfully!", .success⟩, true⟩
    | .error e =>
      ⟨st.wallet, st.transactions,
        some (match e with
          | .api a => ⟨a.message, .error⟩
          | _ => ⟨"Failed to delete transaction", .error⟩), true⟩

/-! ## Wallets page (src/src/pages/WalletsPage.tsx) -/

/-- Outcome of `handleCreateWallet`: the displayed wallets list, the toast,
and whether the POST was issued. -/
structure CreateWalletResult where
  wallets : List WalletDto
  toast : Option ToastMsg
  requestSent : Bool
deriving DecidableEq

/-- JS `String.prototype.trim()` over a character list. -/
def jsTrim (s : List Char) : List Char :=
  ((s.dropWhile Char.isWhitespace).reverse.dropWhile Char.isWhitespace).reverse

/-- JS `String.prototype.trim()` on a `String`, via its character list. -/
def jsTrimString (s : String) : String :=
  ⟨jsTrim s.data⟩

/-- Handler `handleCreateWallet` from WalletsPage.tsx: reject a blank name
client-side, otherwise POST and on success append the server-returned wallet
to the displayed list. -/
def handleCreateWallet (server : Except JsError WalletDto)
    (newWalletName : String) (wallets : List WalletDto) : CreateWalletResult :=
  if jsTrimString newWalletName = "" then
    ⟨wallets, some ⟨"Wallet name is required", .error⟩, false⟩
  else
    match server with
    | .ok newWallet =>
      ⟨wallets ++ [newWallet], some ⟨"Wallet created successfully!", .success⟩, true⟩
    | .error e =>
      ⟨wallets,
        some (match e with
          | .api a => ⟨a.message, .error⟩
          | _ => ⟨"Failed to create wallet", .error⟩), true⟩

/-! ## Transaction confirmation modal (TransactionConfirmationModal, src/components) -/

/-- The selection state of the confirmation modal form: transaction type and
the selected category/subcategory ids (`none` models the empty-string
sentinel). -/
structure ModalSelection where
  type : TransactionType
  categoryId : Option Int
  subcategoryId : Option Int
deriving DecidableEq

/-- Handler `handleTypeChange` from TransactionConfirmationModal: on a type change,
select the first category of that type (re-fetched from the full list by id)
and its first subcategory, or clear the selections when none exists. -/
def handleTypeChange (categories : List CategoryDto) (newType : TransactionType) :
    ModalSelection :=
  let newFilteredCategories := categories.filter (fun c => c.type = newType)
  match newFilteredCategories with
  | [] => ⟨newType, none, none⟩
  | c0 :: _ =>
    let newCategoryId := c0.id
    let newCategory := categories.find? (fun c => c.id = newCategoryId)
    let subId : Option Int :=
      match newCategory with
      | some c =>
        match c.subcategories with
        | some (s0 :: _) => some s0.id
        | _ => none
      | none => none
    ⟨newType, some newCategoryId, subId⟩

/-- What the specification says `handleTypeChange` selects: the first
category whose type equals the new type (or empty), and the first
subcategory of that category (or empty). -/
def specTypeChangeSelection (categories : List CategoryDto) (newType : TransactionType) :
    ModalSelection :=
  match (categories.filter (fun c => c.type = newType)).head? with
  | none => ⟨newType, none, none⟩
  | some c => ⟨newType, some c.id, ((c.subcategories.getD []).head?).map (fun s => s.id)⟩

/-! ## Dropdown widget (Dropdown, src/components) -/

/-- A dropdown value: the `string | number` union of the option values. -/
inductive DropdownValue where
  | str (s : String)
  | num (n : Int)
deriving DecidableEq

/-- A dropdown option. `icon` and `badge` are purely presentational and
omitted; a missing `disabled` flag is falsy, i.e. `false`. -/
structure DropdownOption where
  value : DropdownValue
  label : String
  disabled : Bool
deriving DecidableEq

/-- Whether `pre` is a prefix of the second list. -/
def isPrefixChars : List Char → List Char → Bool
  | [], _ => true
  | _ :: _, [] => false
  | a :: as, b :: bs => a == b && isPrefixChars as bs

/-- JS `hay.includes(needle)` on strings, over their character lists. -/
def containsChars (needle : List Char) : List Char → Bool
  | [] => needle.isEmpty
  | c :: t => isPrefixChars needle (c :: t) || containsChars needle t

/-- The filtered option list: when searchable and a search term is present,
the options whose lowercased label contains the lowercased term. -/
def filteredOptions (options : List DropdownOption) (searchable : Bool)
    (searchTerm : String) : List DropdownOption :=
  if searchable && searchTerm ≠ "" then
    options.filter (fun opt => containsChars searchTerm.toLower.data opt.label.toLower.data)
  else options

/-- Function `handleSelect`: the value handed to `onChange`, if any — disabled options
emit nothing. -/
def handleSelect (opt : DropdownOption) : Option DropdownValue :=
  if opt.disabled then none else some opt.value

/-- The value emitted by a mouse click on the item at position `i` of the
currently displayed (filtered) list. -/
def clickEmit (options : List DropdownOption) (searchable : Bool)
    (searchTerm : String) (i : Nat) : Option DropdownValue :=
  match (filteredOptions options searchable searchTerm)[i]? with
  | some opt => handleSelect opt
  | none => none

/-- The keys `handleKeyDown` dispatches on. -/
inductive Key where
  | enter
  | space
  | escape
  | arrowDown
  | arrowUp
  | tab
  | other
deriving DecidableEq

/-- The value emitted by `handleKeyDown`: only Enter/Space on an open
dropdown with a valid highlighted index can select, via `handleSelect`. -/
def keyDownEmit (options : List DropdownOption) (searchable : Bool)
    (searchTerm : String) (disabled isOpen : Bool) (highlightedIndex : Int)
    (k : Key) : Option DropdownValue :=
  if disabled then none
  else
    match k with
    | .enter | .space =>
      if !isOpen then none
      else if 0 ≤ highlightedIndex then
        match (filteredOptions options searchable searchTerm)[highlightedIndex.toNat]? with
        | some opt => handleSelect opt
        | none => none
      else none
    | _ => none

/-! ## Base64 and credential storage (src/lib/api.ts) -/

/-- The base64 alphabet, indices 0..63. -/
def base64Alphabet : List Char :=
  ['A', 'B', 'C', 'D', 'E', 'F', 'G', 'H', 'I', 'J', 'K', 'L', 'M',
   'N', 'O', 'P', 'Q', 'R', 'S', 'T', 'U', 'V', 'W', 'X', 'Y', 'Z',
   'a', 'b', 'c', 'd', 'e', 'f', 'g', 'h', 'i', 'j', 'k', 'l', 'm',
   'n', 'o', 'p', 'q', 'r', 's', 't', 'u', 'v', 'w', 'x', 'y', 'z',
   '0', '1', '2', '3', '4', '5', '6', '7', '8', '9', '+', '/']

/-- The base64 digit for a sextet. -/
def b64Char (n : Nat) : Char := base64Alphabet.getD n 'A'

/-- The sextet encoded by a base64 digit, if the character is one. -/
def b64Index (c : Char) : Option Nat := base64Alphabet.findIdx? (fun d => d = c)

/-- Base64-encode a byte sequence (the encoding performed by `btoa`),
with `=` padding. -/
def encodeBytes : List Nat → List Char
  | [] => []
  | [a] => [b64Char (a / 4), b64Char (a % 4 * 16), '=', '=']
  | [a, b] => [b64Char (a / 4), b64Char (a % 4 * 16 + b / 16), b64Char (b % 16 * 4), '=']
  | a :: b :: c :: rest =>
    b64Char (a / 4) :: b64Char (a % 4 * 16 + b / 16) ::
      b64Char (b % 16 * 4 + c / 64) :: b64Char (c % 64) :: encodeBytes rest

/-- Base64-decode a character sequence back to bytes (the decoding performed
by `atob`); `none` models the exception on malformed input. -/
def decodeBytes : List Char → Option (List Nat)
  | [] => some []
  | c1 :: c2 :: c3 :: c4 :: rest =>
    match b64Index c1, b64Index c2 with
    | some s0, some s1 =>
      if c3 = '=' then
        if c4 = '=' && rest.isEmpty then some [s0 * 4 + s1 / 16] else none
      else
        match b64Index c3 with
        | some s2 =>
          if c4 = '=' then
            if rest.isEmpty then some [s0 * 4 + s1 / 16, s1 % 16 * 16 + s2 / 4] else none
          else
            match b64Index c4, decodeBytes rest with
            | some s3, some more =>
              some ((s0 * 4 + s1 / 16) :: (s1 % 16 * 16 + s2 / 4) :: (s2 % 4 * 64 + s3) :: more)
            | _, _ => none
        | none => none
    | _, _ => none
  | _ => none

/-- Primitive `btoa`: base64 of a latin-1 string; throws (`none`) when a character's
code point exceeds 255. The string is its character list. -/
def btoaChars (s : List Char) : Option (List Char) :=
  if s.all (fun c => c.toNat < 256) then some (encodeBytes (s.map Char.toNat))
  else none

/-- Primitive `atob`: decode a base64 string back to a latin-1 string; throws
(`none`) on malformed input. -/
def atobChars (s : List Char) : Option (List Char) :=
  (decodeBytes s).map (fun bs => bs.map Char.ofNat)

/-- Function `storeCredentials(u, p)`: store `btoa` of `username:password` under the
sessionStorage key "fc_credentials". The argument `storage` is that entry's
prior value; when `btoa` throws nothing is stored. -/
def storeCredentials (username password : List Char) (storage : Option (List Char)) :
    Option (List Char) :=
  match btoaChars (username ++ ':' :: password) with
  | some cred => some cred
  | none => storage

/-- Function `clearCredentials()`: remove the "fc_credentials" entry. -/
def clearCredentials (_ : Option (List Char)) : Option (List Char) := none

/-- Function `getStoredCredentials()`: the raw entry, or null. -/
def getStoredCredentials (storage : Option (List Char)) : Option (List Char) := storage

/-- The first element of `decoded.split(':')`: the characters before the
first colon. -/
def takeBeforeColon : List Char → List Char
  | [] => []
  | c :: cs => if c = ':' then [] else c :: takeBeforeColon cs

/-- Function `getUsernameFromCredentials()`: decode the stored entry and take the part
before the first colon; null when the entry is missing or empty (falsy) or
`atob` throws. -/
def getUsernameFromCredentials (storage : Option (List Char)) : Option (List Char) :=
  match getStoredCredentials storage with
  | none => none
  | some cred =>
    if cred = [] then none
    else
      match atobChars cred with
      | none => none
      | some decoded => some (takeBeforeColon decoded)

/-! ## Auth context and login page (AuthContext, src/src/pages/LoginPage.tsx) -/

/-- The `login` function of AuthContext, given the outcome of the login POST:
on success store the credentials and set the current user, on any failure
clear both and rethrow. Returns (storage entry, currentUser, result). -/
def authLogin (server : Except JsError Json) (username password : List Char)
    (_storage : Option (List Char)) :
    Option (List Char) × Option (List Char) × Except JsError Bool :=
  match server with
  | .ok _ =>
    match btoaChars (username ++ ':' :: password) with
    | some cred => (some cred, some username, .ok true)
    | none => (none, none, .error .invalidChar)
  | .error e => (none, none, .error e)

/-- Handler `handleSubmit` of LoginPage: validate the two fields, attempt the login,
and map the outcome to a toast (messages stand for the translation keys the
page passes to `showToast`). Returns (storage entry, currentUser, toast). -/
def loginHandleSubmit (server : Except JsError Json) (username password : List Char)
    (storage : Option (List Char)) (currentUser : Option (List Char)) :
    Option (List Char) × Option (List Char) × ToastMsg :=
  if jsTrim username = [] then
    (storage, currentUser, ⟨"errors.requiredField", .error⟩)
  else if password = [] then
    (storage, currentUser, ⟨"errors.requiredField", .error⟩)
  else
    match authLogin server username password storage with
    | (storage', user', .ok _) => (storage', user', ⟨"common.success", .success⟩)
    | (storage', user', .error e) =>
      (storage', user',
        match e with
        | .api a =>
          if a.status = 401 then ⟨"errors.unauthorized", .error⟩
          else ⟨a.message, .error⟩
        | _ => ⟨"errors.generic", .error⟩)

/-! ## Concrete sample data, used to evaluate the theorems below -/

/-- A parse function that maps every body to `none` (no valid JSON). -/
def noParse : String → Option Json := fun _ => none

/-- A sample category with one subcategory. -/
def sampleCategory : CategoryDto :=
  ⟨1, "Food", .debit, false, none, some [⟨10, "Groceries", 1⟩]⟩

/-- A sample credit category without subcategories. -/
def sampleCreditCategory : CategoryDto :=
  ⟨2, "Salary", .credit, true, none, some []⟩

/-- A sample transaction already displayed. -/
def sampleTx0 : TransactionDto :=
  ⟨100, .debit, "Food", none, .val 5, none, "2024-01-01", 7⟩

/-- A sample transaction as returned by the server for a create. -/
def sampleTx1 : TransactionDto :=
  ⟨101, .credit, "Food", none, .val 8, none, "2024-01-02", 7⟩

/-- A sample wallet. -/
def sampleWallet : WalletDto := ⟨7, "Main", .val 50, "EUR", 1⟩

/-- A concrete stand-in for `parseFloat`, defined on the inputs the samples
use. -/
def sampleParseFloat : String → JsNum :=
  fun s => if s = "5" then .val 5 else if s = "-5" then .val (-5) else .nan

/-- A wallet-detail page state with a validly filled transaction form. -/
def sampleDetailState : WalletDetailState :=
  ⟨some sampleWallet, [sampleTx0], [sampleCategory], .debit, some 1, some 10,
    "5", "", "2024-01-03"⟩

/-- The same page state with an empty amount input. -/
def sampleEmptyAmountState : WalletDetailState :=
  { sampleDetailState with newAmount := "" }

/-- A sample dropdown option. -/
def sampleOption : DropdownOption := ⟨.num 1, "Debit", false⟩

/-! ## Helper lemmas -/

theorem pickErrMsg_eq_specErrorMessage (parsed : Option Json) (status : Nat)
    (h : ∀ j, parsed = some j →
      goodStringField j "message" ∧ goodStringField j "error") :
    pickErrMsg parsed status = specErrorMessage parsed status := by
  cases parsed with
  | none => rfl
  | some j =>
    obtain ⟨hm, he⟩ := h j rfl
    unfold goodStringField at hm he
    unfold pickErrMsg specErrorMessage truthyField strField
    cases hmf : j.getField "message" with
    | none =>
      simp only [hmf]
      cases hef : j.getField "error" with
      | none => simp [hef]
      | some v =>
        simp only [hef] at he ⊢
        cases v with
        | str s =>
          have hs : (s != "") = true := by simpa using he
          simp [Json.truthy, hs, Json.jsToString]
        | null => exact absurd he (by simp)
        | bool b => exact absurd he (by simp)
        | num q => exact absurd he (by simp)
        | arr l => exact absurd he (by simp)
        | obj l => exact absurd he (by simp)
    | some v =>
      simp only [hmf] at hm ⊢
      cases v with
      | str s =>
        have hs : (s != "") = true := by simpa using hm
        simp [Json.truthy, hs, Json.jsToString]
      | null => exact absurd hm (by simp)
      | bool b => exact absurd hm (by simp)
      | num q => exact absurd hm (by simp)
      | arr l => exact absurd hm (by simp)
      | obj l => exact absurd hm (by simp)

/-- C1, claim statement. For every API wrapper: a non-2xx response throws an
ApiError carrying the response's HTTP status and the message selected from
the body's message field, else its error field, else the default
HTTP Error string (stated under the backend's error-body shape: message and
error fields absent or non-empty strings); a 2xx response whose non-empty
body parses to a JSON value resolves with that value and throws nothing. -/
theorem c1_api_wrappers_error_mapping (parse : String → Option Json) (r : Response)
    (hfields : ∀ j, parse r.bodyText = some j →
      goodStringField j "message" ∧ goodStringField j "error") :
    (r.isOk = false →
      getJson parse r = .error (.api ⟨r.status, specErrorMessage (parse r.bodyText) r.status⟩) ∧
      postJson parse r = .error (.api ⟨r.status, specErrorMessage (parse r.bodyText) r.status⟩) ∧
      deleteJson parse r = .error (.api ⟨r.status, specErrorMessage (parse r.bodyText) r.status⟩) ∧
      postFormData parse r = .error (.api ⟨r.status, specErrorMessage (parse r.bodyText) r.status⟩)) ∧
    (r.isOk = true → r.bodyText ≠ "" → ∀ j, parse r.bodyText = some j →
      getJson parse r = .ok j ∧ postJson parse r = .ok j ∧
      deleteJson parse r = .ok j ∧ postFormData parse r = .ok j) := by
  constructor
  · intro hok
    have key : handleResponse parse r
        = .error (.api ⟨r.status, specErrorMessage (parse r.bodyText) r.status⟩) := by
      unfold handleResponse
      rw [hok, pickErrMsg_eq_specErrorMessage (parse r.bodyText) r.status hfields]
      simp
    exact ⟨key, key, key, key⟩
  · intro hok hne j hj
    have key : handleResponse parse r = .ok j := by
      unfold handleResponse
      rw [hok, hj]
      simp [hne]
    exact ⟨key, key, key, key⟩

/-- C1 witness: a 404 with an unparseable body maps to the default message,
evaluated on a concrete response. -/
theorem c1_api_wrappers_error_mapping_witness :
    getJson noParse ⟨404, ""⟩ = .error (.api ⟨404, "HTTP Error: 404"⟩) := by
  have h := (c1_api_wrappers_error_mapping noParse ⟨404, ""⟩
    (fun j hj => by simp [noParse] at hj)).1 rfl
  simpa [noParse, specErrorMessage, defaultHttpMessage] using h.1

/-- C10: a 2xx response with an empty body resolves with the empty object in
every wrapper; no JSON parse error is thrown. -/
theorem c10_empty_success_body (parse : String → Option Json) (r : Response)
    (hok : r.isOk = true) (hempty : r.bodyText = "") :
    getJson parse r = .ok (Json.obj []) ∧ postJson parse r = .ok (Json.obj []) ∧
    deleteJson parse r = .ok (Json.obj []) ∧ postFormData parse r = .ok (Json.obj []) := by
  have key : handleResponse parse r = .ok (Json.obj []) := by
    unfold handleResponse
    rw [hok, hempty]
    simp
  exact ⟨key, key, key, key⟩

/-- C10 witness: evaluated on a concrete 204 No Content response. -/
theorem c10_empty_success_body_witness :
    getJson noParse ⟨204, ""⟩ = .ok (Json.obj []) :=
  (c10_empty_success_body noParse ⟨204, ""⟩ rfl rfl).1

/-- C2: a login attempt whose POST fails with an ApiError of status 401
produces the unauthorized error toast, and afterwards the "fc_credentials"
sessionStorage entry is absent and currentUser is null. -/
theorem c2_unauthorized_login_clears_credentials (e : ApiError) (u p : List Char)
    (storage currentUser : Option (List Char))
    (h401 : e.status = 401) (hu : jsTrim u ≠ []) (hp : p ≠ []) :
    loginHandleSubmit (.error (.api e)) u p storage currentUser
      = (none, none, ⟨"errors.unauthorized", .error⟩) := by
  unfold loginHandleSubmit authLogin
  simp [hu, hp, h401]

/-- C2 witness: evaluated for the user "alice" with password "pw" and a
401 ApiError. -/
theorem c2_unauthorized_login_clears_credentials_witness :
    loginHandleSubmit (.error (.api ⟨401, "Unauthorized"⟩)) "alice".data "pw".data
        none none
      = (none, none, ⟨"errors.unauthorized", .error⟩) :=
  c2_unauthorized_login_clears_credentials ⟨401, "Unauthorized"⟩ "alice".data "pw".data
    none none rfl (by decide) (by decide)

/-- C3: a transaction-form submission whose amount input is empty or parses
to a non-positive number is rejected with an error toast before any POST is
issued, and the page state (wallet, transactions, categories, form) is left
unchanged. -/
theorem c3_nonpositive_amount_rejected (pf : String → JsNum) (today : String)
    (server : Except JsError TransactionDto) (st : WalletDetailState)
    (h : st.newAmount = "" ∨ ∃ q, pf st.newAmount = .val q ∧ q ≤ 0) :
    (handleCreateTransaction pf today server st).state = st ∧
    (handleCreateTransaction pf today server st).requestSent = false ∧
    ∃ m, (handleCreateTransaction pf today server st).toast = some ⟨m, .error⟩ := by
  unfold handleCreateTransaction
  by_cases hc : idTruthy st.newCategoryId
  · have hcond : (st.newAmount = "" || (pf st.newAmount).leZero) = true := by
      rcases h with he | ⟨q, hq, hle⟩
      · simp [he]
      · simp [hq, JsNum.leZero, hle]
    simp [hc, hcond]
  · simp [hc]

/-- C3 witness: evaluated on the sample state with an empty amount input. -/
theorem c3_nonpositive_amount_rejected_witness :
    (handleCreateTransaction sampleParseFloat "2024-01-04" (.ok sampleTx1)
        sampleEmptyAmountState).state = sampleEmptyAmountState ∧
    (handleCreateTransaction sampleParseFloat "2024-01-04" (.ok sampleTx1)
        sampleEmptyAmountState).requestSent = false ∧
    ∃ m, (handleCreateTransaction sampleParseFloat "2024-01-04" (.ok sampleTx1)
        sampleEmptyAmountState).toast = some ⟨m, .error⟩ :=
  c3_nonpositive_amount_rejected sampleParseFloat "2024-01-04" (.ok sampleTx1)
    sampleEmptyAmountState (Or.inl rfl)

/-- C4: a successful wallet creation appends exactly the server-returned
wallet at the end of the displayed list: the length grows by one, every
previously displayed wallet keeps its position, and the new wallet is last. -/
theorem c4_create_wallet_appends (w : WalletDto) (name : String)
    (wallets : List WalletDto) (h : jsTrimString name ≠ "") :
    (handleCreateWallet (.ok w) name wallets).wallets = wallets ++ [w] ∧
    (handleCreateWallet (.ok w) name wallets).wallets.length = wallets.length + 1 ∧
    (∀ i, i < wallets.length →
      (handleCreateWallet (.ok w) name wallets).wallets[i]? = wallets[i]?) ∧
    (handleCreateWallet (.ok w) name wallets).wallets[wallets.length]? = some w := by
  have hw : (handleCreateWallet (.ok w) name wallets).wallets = wallets ++ [w] := by
    unfold handleCreateWallet
    simp [h]
  refine ⟨hw, ?_, ?_, ?_⟩ <;> rw [hw]
  · simp
  · intro i hi
    exact List.getElem?_append_left hi
  · exact List.getElem?_concat_length wallets w

/-- C4 witness: evaluated on a concrete creation adding to a one-wallet
list. -/
theorem c4_create_wallet_appends_witness :
    (handleCreateWallet (.ok ⟨8, "Savings", .val 0, "EUR", 1⟩) "Savings"
        [sampleWallet]).wallets = [sampleWallet] ++ [⟨8, "Savings", .val 0, "EUR", 1⟩] :=
  (c4_create_wallet_appends ⟨8, "Savings", .val 0, "EUR", 1⟩ "Savings"
    [sampleWallet] (by decide)).1

/-- C5: a confirmed, successful delete of a transaction present in the list
removes exactly the transactions with that id, and the locally tracked
wallet balance moves by the transaction's signed amount: down by the amount
for a CREDIT, up by the amount for a DEBIT. -/
theorem c5_delete_transaction_updates (st : WalletDetailState) (tid : Int)
    (t : TransactionDto) (w : WalletDto) (q a : ℚ)
    (hfind : st.transactions.find? (fun tr => tr.id = tid) = some t)
    (hw : st.wallet = some w) (hb : w.balance = .val q) (ha : t.amount = .val a) :
    (handleDeleteTransaction true (.ok ()) st tid).transactions
        = st.transactions.filter (fun tr => !(tr.id = tid)) ∧
    (∀ tr ∈ (handleDeleteTransaction true (.ok ()) st tid).transactions, tr.id ≠ tid) ∧
    (∀ tr ∈ st.transactions, tr.id ≠ tid →
      tr ∈ (handleDeleteTransaction true (.ok ()) st tid).transactions) ∧
    (handleDeleteTransaction true (.ok ()) st tid).wallet
        = some { w with balance := .val (if t.type = .credit then q - a else q + a) } := by
  have hbal : w.balance.add (if t.type = .credit then t.amount.neg else t.amount)
      = .val (if t.type = .credit then q - a else q + a) := by
    by_cases ht : t.type = .credit <;>
      simp [ht, hb, ha, JsNum.add, JsNum.neg, sub_eq_add_neg]
  have hmain : handleDeleteTransaction true (.ok ()) st tid
      = ⟨some { w with balance := .val (if t.type = .credit then q - a else q + a) },
          st.transactions.filter (fun tr => !(tr.id = tid)),
          some ⟨"Transaction deleted successfully!", .success⟩, true⟩ := by
    unfold handleDeleteTransaction
    simp [hfind, hw, hbal]
  refine ⟨by rw [hmain], ?_, ?_, by rw [hmain]⟩
  · intro tr htr
    rw [hmain] at htr
    have h2 := (List.mem_filter.mp htr).2
    simpa using h2
  · intro tr htr hne
    rw [hmain]
    exact List.mem_filter.mpr ⟨htr, by simp [hne]⟩

/-- C5 witness: deleting the displayed sample debit transaction from the
sample state raises the balance by its amount. -/
theorem c5_delete_transaction_updates_witness :
    (handleDeleteTransaction true (.ok ()) sampleDetailState 100).transactions
        = sampleDetailState.transactions.filter (fun tr => !(tr.id = 100)) ∧
    (handleDeleteTransaction true (.ok ()) sampleDetailState 100).wallet
        = some { sampleWallet with balance := .val (50 + 5) } := by
  have h := c5_delete_transaction_updates sampleDetailState 100 sampleTx0 sampleWallet
    50 5 (by decide) rfl rfl rfl
  refine ⟨h.1, ?_⟩
  simpa using h.2.2.2

theorem find?_id_eq_of_nodup (l : List CategoryDto) (c : CategoryDto)
    (hmem : c ∈ l) (hnd : (l.map (fun x => x.id)).Nodup) :
    l.find? (fun x => x.id = c.id) = some c := by
  induction l with
  | nil => cases hmem
  | cons d tl ih =>
    simp only [List.map_cons, List.nodup_cons] at hnd
    obtain ⟨hdn, hnd'⟩ := hnd
    rcases List.mem_cons.mp hmem with rfl | hmem'
    · simp [List.find?]
    · have hne : d.id ≠ c.id := fun hid => hdn (hid ▸ List.mem_map_of_mem _ hmem')
      rw [List.find?_cons_of_neg _ (by simpa using hne)]
      exact ih hmem' hnd'

/-- C6: when category ids are distinct (as server-assigned ids are), a type
change in the confirmation modal selects the first category of the new type
(or clears the selection) and the first subcategory of that category (or
clears it), exactly as the specification states. -/
theorem c6_type_change_selects_first (categories : List CategoryDto)
    (newType : TransactionType)
    (hids : (categories.map (fun c => c.id)).Nodup) :
    handleTypeChange categories newType = specTypeChangeSelection categories newType := by
  unfold handleTypeChange specTypeChangeSelection
  cases hf : categories.filter (fun c => c.type = newType) with
  | nil => rfl
  | cons c0 rest =>
    have hmem : c0 ∈ categories :=
      List.mem_of_mem_filter (hf ▸ List.mem_cons_self c0 rest)
    simp only [find?_id_eq_of_nodup categories c0 hmem hids, List.head?_cons]
    cases hs : c0.subcategories with
    | none => simp [hs]
    | some l =>
      cases l with
      | nil => simp [hs]
      | cons s0 tl => simp [hs]

/-- C6 witness: evaluated on the two sample categories for a switch to
CREDIT. -/
theorem c6_type_change_selects_first_witness :
    handleTypeChange [sampleCategory, sampleCreditCategory] .credit
      = specTypeChangeSelection [sampleCategory, sampleCreditCategory] .credit :=
  c6_type_change_selects_first [sampleCategory, sampleCreditCategory] .credit
    (by decide)

/-- C7 counterexample: on a concrete successful creation the displayed list
is not the previous list with the new transaction appended at the end — the
code prepends it. -/
theorem c7_counterexample :
    (handleCreateTransaction sampleParseFloat "2024-01-04" (.ok sampleTx1)
        sampleDetailState).state.transactions
      ≠ sampleDetailState.transactions ++ [sampleTx1] := by
  decide

/-- C7 as amended: upon every successful creation the displayed list is the
server-returned transaction prepended at the front, with all previous
transactions unchanged and shifted one position down. -/
theorem c7_create_prepends (pf : String → JsNum) (today : String)
    (tx : TransactionDto) (st : WalletDetailState)
    (hsent : (handleCreateTransaction pf today (.ok tx) st).requestSent = true) :
    (handleCreateTransaction pf today (.ok tx) st).state.transactions
      = tx :: st.transactions := by
  by_cases h1 : idTruthy st.newCategoryId
  · by_cases h2 : (st.newAmount = "" || (pf st.newAmount).leZero) = true
    · exfalso
      have hns : (handleCreateTransaction pf today (.ok tx) st).requestSent = false := by
        unfold handleCreateTransaction
        simp [h1, h2]
      rw [hsent] at hns
      exact absurd hns (by decide)
    · by_cases h3 : st.newDate = ""
      · exfalso
        have hns : (handleCreateTransaction pf today (.ok tx) st).requestSent = false := by
          unfold handleCreateTransaction
          simp [h1, h2, h3]
        rw [hsent] at hns
        exact absurd hns (by decide)
      · obtain ⟨cid, hcid⟩ : ∃ cid, st.newCategoryId = some cid := by
          cases hc : st.newCategoryId with
          | none => rw [hc] at h1; simp [idTruthy] at h1
          | some n => exact ⟨n, rfl⟩
        rw [hcid] at h1
        cases hfind : st.categories.find? (fun c => c.id = cid) with
        | none =>
          exfalso
          have hns : (handleCreateTransaction pf today (.ok tx) st).requestSent = false := by
            unfold handleCreateTransaction
            simp [h1, h2, h3, hcid, hfind]
          rw [hsent] at hns
          exact absurd hns (by decide)
        | some c =>
          unfold handleCreateTransaction
          simp [h1, h2, h3, hcid, hfind]
  · exfalso
    have hns : (handleCreateTransaction pf today (.ok tx) st).requestSent = false := by
      unfold handleCreateTransaction
      simp [h1]
    rw [hsent] at hns
    exact absurd hns (by decide)

/-- C7 witness for the amended statement: evaluated on the sample state with
a validly filled form. -/
theorem c7_create_prepends_witness :
    (handleCreateTransaction sampleParseFloat "2024-01-04" (.ok sampleTx1)
        sampleDetailState).state.transactions
      = sampleTx1 :: sampleDetailState.transactions :=
  c7_create_prepends sampleParseFloat "2024-01-04" sampleTx1 sampleDetailState
    (by decide)

theorem mem_filteredOptions (options : List DropdownOption) (searchable : Bool)
    (searchTerm : String) (opt : DropdownOption)
    (h : opt ∈ filteredOptions options searchable searchTerm) : opt ∈ options := by
  unfold filteredOptions at h
  split at h
  · exact List.mem_of_mem_filter h
  · exact h

theorem handleSelect_some (opt : DropdownOption) (v : DropdownValue)
    (h : handleSelect opt = some v) : opt.disabled = false ∧ opt.value = v := by
  unfold handleSelect at h
  by_cases hd : opt.disabled
  · simp [hd] at h
  · simp [hd] at h
    exact ⟨by simpa using hd, h⟩

/-- C9: whatever the options list, search state and interaction (click on an
item, or Enter/Space on a highlighted item), the dropdown only ever hands
`onChange` the value of a non-disabled option that is a member of the
current options list. -/
theorem c9_emitted_value_is_member (options : List DropdownOption)
    (searchable : Bool) (searchTerm : String) (disabled isOpen : Bool)
    (highlightedIndex : Int) (k : Key) (i : Nat) (v : DropdownValue)
    (h : clickEmit options searchable searchTerm i = some v ∨
      keyDownEmit options searchable searchTerm disabled isOpen highlightedIndex k
        = some v) :
    ∃ opt ∈ options, opt.disabled = false ∧ opt.value = v := by
  have fromIndex : ∀ j : Nat,
      (match (filteredOptions options searchable searchTerm)[j]? with
        | some opt => handleSelect opt
        | none => none) = some v →
      ∃ opt ∈ options, opt.disabled = false ∧ opt.value = v := by
    intro j hj
    cases hg : (filteredOptions options searchable searchTerm)[j]? with
    | none => rw [hg] at hj; cases hj
    | some opt =>
      rw [hg] at hj
      obtain ⟨hd, hv⟩ := handleSelect_some opt v hj
      exact ⟨opt,
        mem_filteredOptions options searchable searchTerm opt (List.getElem?_mem hg),
        hd, hv⟩
  rcases h with h | h
  · exact fromIndex i h
  · unfold keyDownEmit at h
    by_cases hd : disabled
    · simp [hd] at h
    · rw [if_neg hd] at h
      cases k with
      | enter =>
        by_cases ho : isOpen
        · simp only [ho, Bool.not_true] at h
          by_cases hhi : (0 : Int) ≤ highlightedIndex
          · rw [if_neg (by simp), if_pos hhi] at h
            exact fromIndex highlightedIndex.toNat h
          · rw [if_neg (by simp), if_neg hhi] at h
            cases h
        · simp [ho] at h
      | space =>
        by_cases ho : isOpen
        · simp only [ho, Bool.not_true] at h
          by_cases hhi : (0 : Int) ≤ highlightedIndex
          · rw [if_neg (by simp), if_pos hhi] at h
            exact fromIndex highlightedIndex.toNat h
          · rw [if_neg (by simp), if_neg hhi] at h
            cases h
        · simp [ho] at h
      | escape => cases h
      | arrowDown => cases h
      | arrowUp => cases h
      | tab => cases h
      | other => cases h

/-- C9 witness: a click on the single sample option emits its value, a
member of the list. -/
theorem c9_emitted_value_is_member_witness :
    ∃ opt ∈ [sampleOption], opt.disabled = false ∧ opt.value = .num 1 :=
  c9_emitted_value_is_member [sampleOption] false "" false true 0 .enter 0 (.num 1)
    (Or.inl rfl)

theorem b64Index_b64Char (n : Nat) (h : n < 64) : b64Index (b64Char n) = some n := by
  interval_cases n <;> rfl

theorem b64Char_ne_pad (n : Nat) (h : n < 64) : b64Char n ≠ '=' := by
  interval_cases n <;> decide

theorem decodeBytes_encodeBytes : ∀ (bs : List Nat), (∀ x ∈ bs, x < 256) →
    decodeBytes (encodeBytes bs) = some bs
  | [], _ => rfl
  | [a], h => by
    have ha : a < 256 := h a (by simp)
    have h1 : a / 4 < 64 := by omega
    have h2 : a % 4 * 16 < 64 := by omega
    simp only [encodeBytes, decodeBytes, b64Index_b64Char _ h1, b64Index_b64Char _ h2]
    simp
    omega
  | [a, b], h => by
    have ha : a < 256 := h a (by simp)
    have hb : b < 256 := h b (by simp)
    have h1 : a / 4 < 64 := by omega
    have h2 : a % 4 * 16 + b / 16 < 64 := by omega
    have h3 : b % 16 * 4 < 64 := by omega
    have hne : b64Char (b % 16 * 4) ≠ '=' := b64Char_ne_pad _ h3
    simp only [encodeBytes, decodeBytes, b64Index_b64Char _ h1, b64Index_b64Char _ h2,
      b64Index_b64Char _ h3]
    simp [hne]
    omega
  | a :: b :: c :: rest, h => by
    have ha : a < 256 := h a (by simp)
    have hb : b < 256 := h b (by simp)
    have hc : c < 256 := h c (by simp)
    have h1 : a / 4 < 64 := by omega
    have h2 : a % 4 * 16 + b / 16 < 64 := by omega
    have h3 : b % 16 * 4 + c / 64 < 64 := by omega
    have h4 : c % 64 < 64 := by omega
    have hne3 : b64Char (b % 16 * 4 + c / 64) ≠ '=' := b64Char_ne_pad _ h3
    have hne4 : b64Char (c % 64) ≠ '=' := b64Char_ne_pad _ h4
    have ih := decodeBytes_encodeBytes rest (fun x hx => h x (by simp [hx]))
    simp only [encodeBytes, decodeBytes, b64Index_b64Char _ h1, b64Index_b64Char _ h2,
      b64Index_b64Char _ h3, b64Index_b64Char _ h4, ih]
    simp [hne3, hne4]
    omega

theorem encodeBytes_ne_nil (bs : List Nat) (h : bs ≠ []) : encodeBytes bs ≠ [] := by
  match bs with
  | [] => exact absurd rfl h
  | [a] => simp [encodeBytes]
  | [a, b] => simp [encodeBytes]
  | a :: b :: c :: rest => simp [encodeBytes]

theorem btoaChars_eq (s : List Char) (h : ∀ c ∈ s, c.toNat < 256) :
    btoaChars s = some (encodeBytes (s.map Char.toNat)) := by
  unfold btoaChars
  rw [if_pos]
  exact List.all_eq_true.mpr fun c hc => by simpa using h c hc

theorem atobChars_encode (s : List Char) (h : ∀ c ∈ s, c.toNat < 256) :
    atobChars (encodeBytes (s.map Char.toNat)) = some s := by
  unfold atobChars
  rw [decodeBytes_encodeBytes (s.map Char.toNat)
    (fun x hx => by obtain ⟨c, hc, rfl⟩ := List.mem_map.mp hx; exact h c hc)]
  have hmap : List.map (Char.ofNat ∘ Char.toNat) s = s :=
    (List.map_congr_left fun c _ => Char.ofNat_toNat c).trans (List.map_id s)
  simp only [Option.map_some', List.map_map, hmap]

theorem takeBeforeColon_append (u p : List Char) (h : ':' ∉ u) :
    takeBeforeColon (u ++ ':' :: p) = u := by
  induction u with
  | nil => simp [takeBeforeColon]
  | cons c tl ih =>
    have hc : ¬ c = ':' := fun hcc => h (hcc ▸ List.mem_cons_self c tl)
    have ih' := ih fun hm => h (List.mem_cons_of_mem _ hm)
    simp [takeBeforeColon, hc, ih']

/-- C8: for a username without a colon and any password, both over latin-1
characters (the domain of btoa), storing credentials and reading the
username back returns the username, through the base64 round trip of
`username:password` under the single "fc_credentials" entry; after
clearCredentials the username reads back as null. -/
theorem c8_credentials_roundtrip (u p : List Char) (storage : Option (List Char))
    (hu : ∀ c ∈ u, c.toNat < 256) (hp : ∀ c ∈ p, c.toNat < 256) (hcolon : ':' ∉ u) :
    getUsernameFromCredentials (storeCredentials u p storage) = some u ∧
    getUsernameFromCredentials (clearCredentials (storeCredentials u p storage)) = none := by
  have hall : ∀ c ∈ u ++ ':' :: p, c.toNat < 256 := by
    intro c hc
    rcases List.mem_append.mp hc with h | h
    · exact hu c h
    · rcases List.mem_cons.mp h with rfl | h
      · decide
      · exact hp c h
  have hbt := btoaChars_eq (u ++ ':' :: p) hall
  have hne : encodeBytes ((u ++ ':' :: p).map Char.toNat) ≠ [] :=
    encodeBytes_ne_nil _ (by simp)
  have hat := atobChars_encode (u ++ ':' :: p) hall
  constructor
  · unfold storeCredentials getUsernameFromCredentials getStoredCredentials
    rw [hbt]
    simp only [List.map_append, List.map_cons, show ':'.toNat = 58 from rfl] at hne hat
    simp [hne, hat, takeBeforeColon_append u p hcolon]
  · unfold clearCredentials getUsernameFromCredentials getStoredCredentials
    rfl

/-- C8 witness: evaluated for the user "alice" with password "pw". -/
theorem c8_credentials_roundtrip_witness :
    getUsernameFromCredentials (storeCredentials "alice".data "pw".data none)
        = some "alice".data ∧
    getUsernameFromCredentials
        (clearCredentials (storeCredentials "alice".data "pw".data none)) = none :=
  c8_credentials_roundtrip "alice".data "pw".data none (by decide) (by decide)
    (by decide)

end FinanceControl
